import Mathlib

/-!
Verification of the NexusChat browser chat client against its design document.

The client-side message-feed controller, the group invite/join flow, the group
creation flow and the signup flow are embedded shallowly below.  Pure functions
of the source become Lean functions; the React component state becomes explicit
record types; the document database is modelled as lists of documents in the
order the backend's queries return them (the queries order messages by
timestamp descending, so a query-result stream is a descending-ordered list).
Fallible operations return `Except`/`Option`.  Every definition is translated
from the TypeScript source (`ChatsPage.tsx` and the auth page), with the source
line numbers noted in the doc comments.
-/

/-- A Firestore server timestamp: seconds plus fractional nanoseconds
(`Message.timestamp` in ChatsPage.tsx, lines 37-40). -/
structure Ts where
  seconds : Int
  nanoseconds : Int
  deriving DecidableEq

/-- The `Message` interface of ChatsPage.tsx (lines 32-43).  `timestamp` is
`Option` because a document written with `serverTimestamp()` reads back with a
null timestamp until the server acknowledges it; `createdAt` is the client-side
ISO-string fallback captured at send time (line 348). -/
structure Msg where
  id : String
  content : String
  senderId : String
  senderName : String
  timestamp : Option Ts
  groupId : String
  createdAt : Option String
  deriving DecidableEq

/-- The ids of a message list. -/
def idsOf (l : List Msg) : List String := l.map Msg.id

/-- ChatsPage.tsx line 100. -/
def MESSAGES_PER_PAGE : Nat := 25

/-- The feed-controller state owned by `ChatsPage` for the selected group:
`messages`, `lastMessageRef` (modelled as the position of that document in the
descending query stream), `hasMoreMessages`, `isLoadingMore`, `selectedGroup`
(reduced to the selected group id). -/
structure Feed where
  msgs : List Msg
  cursor : Option Nat
  hasMore : Bool
  loadingMore : Bool
  selected : Option String
  deriving DecidableEq

/-- The initial `useState` values of ChatsPage.tsx (lines 78, 82, 92-94). -/
def feed0 : Feed :=
  { msgs := [], cursor := none, hasMore := true, loadingMore := false, selected := none }

/-- Position at which a fetch starts reading the descending query stream:
from the beginning when there is no `startAfter` document, and strictly after
the cursor document otherwise. -/
def fetchStart : Option Nat → Nat
  | none => 0
  | some k => k + 1

/-- The page of documents returned by the messages query of `loadMessages`
(ChatsPage.tsx lines 155-172): the next `MESSAGES_PER_PAGE` documents of the
descending stream, starting strictly after the `startAfter` document when one
is given. -/
def pageAt (S : List Msg) (lastRef : Option Nat) : List Msg :=
  (S.drop (fetchStart lastRef)).take MESSAGES_PER_PAGE

/-- `loadMessages` (ChatsPage.tsx lines 153-194) against the descending
query-result stream `S` for the selected group.  Without a `lastRef` it takes
the first `MESSAGES_PER_PAGE` documents and replaces the list; with a `lastRef`
it takes the next page strictly after that document and appends it to the end
(line 182).  `hasMoreMessages` is set from whether a full page was returned
(line 178) and `lastMessageRef` is advanced to the last (oldest) fetched
document only when the page is non-empty (lines 188-190). -/
def loadMessages (S : List Msg) (st : Feed) (lastRef : Option Nat) : Feed :=
  { st with
    hasMore := (pageAt S lastRef).length == MESSAGES_PER_PAGE,
    msgs := match lastRef with
      | some _ => st.msgs ++ pageAt S lastRef
      | none => pageAt S lastRef,
    cursor := if (pageAt S lastRef).length == 0 then st.cursor
      else some (fetchStart lastRef + ((pageAt S lastRef).length - 1)) }

/-- Number of documents of the stored stream consumed so far, derived from the
cursor position. -/
def fetchedOf (st : Feed) : Nat := fetchStart st.cursor

/-- The synchronous prefix of `handleGroupSelect` (ChatsPage.tsx lines
225-229): select the group and reset the feed state before the awaited fetch. -/
def selectGroupReset (st : Feed) (g : String) : Feed :=
  { st with selected := some g, msgs := [], cursor := none, hasMore := true }

/-- `handleGroupSelect` (ChatsPage.tsx lines 224-256) as one atomic step:
reset, then run the initial fetch (which duplicates the no-cursor branch of
`loadMessages`, lines 238-256). -/
def handleGroupSelect (S : List Msg) (st : Feed) (g : String) : Feed :=
  loadMessages S (selectGroupReset st g) none

/-- The live-subscription callback for one newly `added` document (ChatsPage.tsx
lines 267-281): prepend the delivered message only when its id is not already
present in the list. -/
def liveAdd (m : Msg) (st : Feed) : Feed :=
  if (st.msgs.find? (fun x => x.id == m.id)).isSome then st
  else { st with msgs := m :: st.msgs }

/-- `loadMoreMessages` (ChatsPage.tsx lines 215-221): guarded by "a group is
selected", `hasMoreMessages` and "not already loading"; when the guards pass it
runs `loadMessages` with the current `lastMessageRef` (the transient
`isLoadingMore = true` window nets out by the end of the step).  The returned
Bool records whether a fetch was issued. -/
def loadMoreMessages (S : List Msg) (st : Feed) : Feed × Bool :=
  if st.selected.isNone || !st.hasMore || st.loadingMore then (st, false)
  else (loadMessages S st st.cursor, true)

/-- The sort key of the messages-listener snapshot handler (ChatsPage.tsx
lines 316-320): `a.timestamp?.seconds || 0`, i.e. the server timestamp's
seconds when the timestamp is present and `0` otherwise (the `createdAt`
client fallback is not consulted). -/
def sortKey (m : Msg) : Int :=
  match m.timestamp with
  | some t => t.seconds
  | none => 0

/-- Ascending order on the listener's sort key. -/
def tsLe (a b : Msg) : Prop := sortKey a ≤ sortKey b

/-- Descending order on the listener's sort key (the order of the backend's
`orderBy timestamp desc` query streams). -/
def tsGe (a b : Msg) : Prop := sortKey b ≤ sortKey a

instance : DecidableRel tsLe := fun a b => inferInstanceAs (Decidable (sortKey a ≤ sortKey b))

instance : DecidableRel tsGe := fun a b => inferInstanceAs (Decidable (sortKey b ≤ sortKey a))

instance : IsTotal Msg tsLe := ⟨fun a b => Int.le_total (sortKey a) (sortKey b)⟩

instance : IsTrans Msg tsLe := ⟨fun _ _ _ h1 h2 => le_trans h1 h2⟩

/-- The messages-listener snapshot handler (ChatsPage.tsx lines 292-327): on
every snapshot of the 25 newest messages of the selected group it rebuilds the
whole list, sorted ascending by `sortKey` with the engine's stable sort, and
replaces the in-memory list.  It does not touch the pagination cursor. -/
def messagesSnapshotReplace (S : List Msg) (st : Feed) : Feed :=
  { st with msgs := List.insertionSort tsLe (S.take 25) }

/-- Feed states reachable from a group selection by any sequence of pagination
fetches and live-subscription `added` deliveries over the fixed descending
query stream `S` of the selected group.  The side condition on `live` records
what the backend guarantees for the live query of ChatsPage.tsx lines 259-264:
it is ordered descending with `limit(1)`, so it only ever delivers the current
newest message, never a strictly older, not-yet-paginated document. -/
inductive Reach (S : List Msg) : Feed → Prop
  | select (st0 : Feed) (g : String) : Reach S (handleGroupSelect S st0 g)
  | older {st : Feed} : Reach S st → Reach S (loadMoreMessages S st).1
  | live {st : Feed} (m : Msg) : Reach S st →
      m.id ∉ idsOf (S.drop (fetchedOf st)) → Reach S (liveAdd m st)

/-- The feed invariant: the message ids are distinct, and every id in the list
either comes from the already-consumed prefix of the stored stream or is not a
stored-stream id at all (a live-delivered new message). -/
def FeedInv (S : List Msg) (st : Feed) : Prop :=
  (idsOf st.msgs).Nodup ∧
  ∀ i ∈ idsOf st.msgs, i ∈ idsOf (S.take (fetchedOf st)) ∨ i ∉ idsOf S

lemma take_len_take {α : Type} (S : List α) (n : Nat) :
    S.take ((S.take n).length) = S.take n := by
  rw [List.length_take]
  rcases Nat.le_total n S.length with h | h
  · rw [Nat.min_eq_left h]
  · rw [Nat.min_eq_right h, List.take_length, List.take_of_length_le h]

lemma idsOf_append (l1 l2 : List Msg) : idsOf (l1 ++ l2) = idsOf l1 ++ idsOf l2 :=
  List.map_append _ _ _

lemma idsOf_sublist {l1 l2 : List Msg} (h : l1.Sublist l2) :
    (idsOf l1).Sublist (idsOf l2) := h.map _

lemma fetchStart_none : fetchStart none = 0 := rfl

lemma fetchStart_some (k : Nat) : fetchStart (some k) = k + 1 := rfl

lemma pageAt_none (S : List Msg) : pageAt S none = S.take MESSAGES_PER_PAGE := by
  simp [pageAt, fetchStart]

lemma pageAt_some (S : List Msg) (k : Nat) :
    pageAt S (some k) = (S.drop (k + 1)).take MESSAGES_PER_PAGE := rfl

lemma loadMessages_msgs_none (S : List Msg) (st : Feed) :
    (loadMessages S st none).msgs = pageAt S none := rfl

lemma loadMessages_msgs_some (S : List Msg) (st : Feed) (k : Nat) :
    (loadMessages S st (some k)).msgs = st.msgs ++ pageAt S (some k) := rfl

lemma loadMessages_cursor (S : List Msg) (st : Feed) (lastRef : Option Nat) :
    (loadMessages S st lastRef).cursor = if (pageAt S lastRef).length == 0 then st.cursor
      else some (fetchStart lastRef + ((pageAt S lastRef).length - 1)) := rfl

lemma loadMessages_hasMore (S : List Msg) (st : Feed) (lastRef : Option Nat) :
    (loadMessages S st lastRef).hasMore = ((pageAt S lastRef).length == MESSAGES_PER_PAGE) := rfl

lemma loadMessages_loadingMore (S : List Msg) (st : Feed) (lastRef : Option Nat) :
    (loadMessages S st lastRef).loadingMore = st.loadingMore := rfl

lemma loadMessages_selected (S : List Msg) (st : Feed) (lastRef : Option Nat) :
    (loadMessages S st lastRef).selected = st.selected := rfl

lemma fetchedOf_loadMessages_none (S : List Msg) (st : Feed) (h : pageAt S none ≠ []) :
    fetchedOf (loadMessages S st none) = (pageAt S none).length := by
  have hlen : (pageAt S none).length ≠ 0 := by
    simpa [List.length_eq_zero] using h
  have hbeq : ((pageAt S none).length == 0) = false := by simpa using hlen
  simp only [fetchedOf, loadMessages_cursor, hbeq, Bool.false_eq_true, if_false,
    fetchStart_some, fetchStart_none]
  omega

lemma feedInv_loadMessages_none (S : List Msg) (hS : (idsOf S).Nodup) (st : Feed) :
    FeedInv S (loadMessages S st none) := by
  constructor
  · rw [loadMessages_msgs_none, pageAt_none]
    exact hS.sublist (idsOf_sublist (List.take_sublist _ _))
  · intro i hi
    rw [loadMessages_msgs_none] at hi
    by_cases hp : pageAt S none = []
    · rw [hp] at hi
      simp [idsOf] at hi
    · left
      rw [fetchedOf_loadMessages_none S st hp, pageAt_none, take_len_take]
      rw [pageAt_none] at hi
      exact hi

lemma ids_take_drop_disjoint (S : List Msg) (hS : (idsOf S).Nodup) (n : Nat) :
    ∀ i ∈ idsOf (S.take n), i ∉ idsOf (S.drop n) := by
  have hsplit : idsOf (S.take n) ++ idsOf (S.drop n) = idsOf S := by
    rw [← idsOf_append, List.take_append_drop]
  rw [← hsplit] at hS
  exact fun i hi hj => (List.disjoint_of_nodup_append hS) hi hj

lemma fetchedOf_loadMessages_some (S : List Msg) (st : Feed) (k : Nat)
    (hc : st.cursor = some k) :
    fetchedOf (loadMessages S st (some k)) = (k + 1) + (pageAt S (some k)).length := by
  by_cases hp : (pageAt S (some k)).length = 0
  · have hbeq : ((pageAt S (some k)).length == 0) = true := by simpa using hp
    simp only [fetchedOf, loadMessages_cursor, hbeq, if_true, hc, fetchStart_some]
    omega
  · have hbeq : ((pageAt S (some k)).length == 0) = false := by simpa using hp
    simp only [fetchedOf, loadMessages_cursor, hbeq, Bool.false_eq_true, if_false,
      fetchStart_some]
    omega

lemma feedInv_loadMessages_some (S : List Msg) (hS : (idsOf S).Nodup) (st : Feed) (k : Nat)
    (hc : st.cursor = some k) (hInv : FeedInv S st) :
    FeedInv S (loadMessages S st (some k)) := by
  have hF : fetchedOf st = k + 1 := by simp [fetchedOf, hc, fetchStart_some]
  have hpage_sub : (pageAt S (some k)).Sublist (S.drop (k + 1)) := by
    rw [pageAt_some]; exact List.take_sublist _ _
  have hpage_S : (pageAt S (some k)).Sublist S := hpage_sub.trans (List.drop_sublist _ _)
  have hdisj : ∀ i ∈ idsOf st.msgs, i ∉ idsOf (pageAt S (some k)) := by
    intro i hi hj
    have hjdrop : i ∈ idsOf (S.drop (k + 1)) := (idsOf_sublist hpage_sub).mem hj
    rcases hInv.2 i hi with hmem | hout
    · rw [hF] at hmem
      exact ids_take_drop_disjoint S hS (k + 1) i hmem hjdrop
    · exact hout ((idsOf_sublist (List.drop_sublist _ _)).mem hjdrop)
  have htake : idsOf (S.take ((k + 1) + (pageAt S (some k)).length))
      = idsOf (S.take (k + 1)) ++ idsOf (pageAt S (some k)) := by
    rw [List.take_add, idsOf_append, pageAt_some, take_len_take]
  constructor
  · rw [loadMessages_msgs_some, idsOf_append, List.nodup_append]
    exact ⟨hInv.1, hS.sublist (idsOf_sublist hpage_S), fun i hi => hdisj i hi⟩
  · intro i hi
    rw [loadMessages_msgs_some, idsOf_append, List.mem_append] at hi
    rw [fetchedOf_loadMessages_some S st k hc]
    rcases hi with hi | hi
    · rcases hInv.2 i hi with hmem | hout
      · left
        rw [htake, List.mem_append]
        left
        rw [hF] at hmem
        exact hmem
      · right; exact hout
    · left
      rw [htake, List.mem_append]
      right
      exact hi

lemma find?_id_isSome_iff (l : List Msg) (s : String) :
    (l.find? (fun x => x.id == s)).isSome = true ↔ s ∈ idsOf l := by
  rw [List.find?_isSome]
  constructor
  · rintro ⟨x, hx, hid⟩
    rw [beq_iff_eq] at hid
    exact hid ▸ List.mem_map_of_mem Msg.id hx
  · intro hs
    rcases List.mem_map.1 hs with ⟨x, hx, hid⟩
    exact ⟨x, hx, by rw [beq_iff_eq, hid]⟩

lemma feedInv_liveAdd (S : List Msg) (st : Feed) (m : Msg)
    (hm : m.id ∉ idsOf (S.drop (fetchedOf st))) (hInv : FeedInv S st) :
    FeedInv S (liveAdd m st) := by
  unfold liveAdd
  by_cases hf : (st.msgs.find? (fun x => x.id == m.id)).isSome = true
  · simpa [hf] using hInv
  · have hnotmem : m.id ∉ idsOf st.msgs := fun h =>
      hf ((find?_id_isSome_iff st.msgs m.id).2 h)
    have hbeq : (st.msgs.find? (fun x => x.id == m.id)).isSome = false := by
      simpa using hf
    simp only [hbeq, Bool.false_eq_true, if_false]
    constructor
    · show ((m :: st.msgs).map Msg.id).Nodup
      rw [List.map_cons, List.nodup_cons]
      exact ⟨hnotmem, hInv.1⟩
    · intro i hi
      simp only [idsOf, List.map_cons, List.mem_cons] at hi
      rcases hi with hi | hi
      · subst hi
        by_cases hmS : m.id ∈ idsOf S
        · left
          have := (List.take_append_drop (fetchedOf st) S) ▸ hmS
          rw [← List.take_append_drop (fetchedOf st) S, idsOf_append,
            List.mem_append] at hmS
          rcases hmS with h | h
          · exact h
          · exact absurd h hm
        · right; exact hmS
      · exact hInv.2 i hi

lemma feedInv_loadMoreMessages (S : List Msg) (hS : (idsOf S).Nodup) (st : Feed)
    (hInv : FeedInv S st) : FeedInv S (loadMoreMessages S st).1 := by
  unfold loadMoreMessages
  by_cases hg : (st.selected.isNone || !st.hasMore || st.loadingMore) = true
  · simpa [hg] using hInv
  · have hg2 : (st.selected.isNone || !st.hasMore || st.loadingMore) = false := by
      rcases h : (st.selected.isNone || !st.hasMore || st.loadingMore) with _ | _
      · rfl
      · exact absurd h hg
    simp only [hg2, Bool.false_eq_true, if_false]
    cases hc : st.cursor with
    | none =>
        have := feedInv_loadMessages_none S hS st
        simpa [hc] using this
    | some k =>
        have := feedInv_loadMessages_some S hS st k hc hInv
        simpa [hc] using this

lemma feedInv_reach (S : List Msg) (hS : (idsOf S).Nodup) {st : Feed}
    (h : Reach S st) : FeedInv S st := by
  induction h with
  | select st0 g => exact feedInv_loadMessages_none S hS (selectGroupReset st0 g)
  | older _ ih => exact feedInv_loadMoreMessages S hS _ ih
  | live m _ hm ih => exact feedInv_liveAdd S _ m hm ih

/-- C1: for every sequence of live-subscription `added` deliveries and
pagination fetches applied to the feed state (starting from a group
selection), the in-memory message list contains no two entries with the same
message id, given that the stored stream itself has distinct document ids.
The live callback's insert-only-if-absent guard is the `liveAdd` definition
used by the `Reach.live` step. -/
theorem c1_feed_no_duplicate_ids (S : List Msg) (hS : (idsOf S).Nodup)
    {st : Feed} (h : Reach S st) : (idsOf st.msgs).Nodup :=
  (feedInv_reach S hS h).1

/-- A message-document literal used by the concrete witnesses. -/
def msgT (i : String) (sec : Int) : Msg :=
  { id := i, content := "m", senderId := "u", senderName := "u",
    timestamp := some { seconds := sec, nanoseconds := 0 }, groupId := "g",
    createdAt := none }

/-- A two-message descending stored stream. -/
def S1 : List Msg := [msgT "b" 2, msgT "a" 1]

/-- A freshly sent message, newer than everything in `S1`. -/
def mNew : Msg := msgT "c" 3

/-- Witness for C1: a concrete trace (select the group, then a live `added`
delivery of a fresh message) keeps the ids distinct. -/
theorem c1_feed_no_duplicate_ids_witness :
    (idsOf S1).Nodup ∧
    (idsOf (liveAdd mNew (handleGroupSelect S1 feed0 "g")).msgs).Nodup :=
  ⟨by decide, c1_feed_no_duplicate_ids S1 (by decide)
    (Reach.live mNew (Reach.select feed0 "g") (by decide))⟩

lemma MESSAGES_PER_PAGE_eq : MESSAGES_PER_PAGE = 25 := rfl

/-- C2 counterexample: after the initial-fetch transition of a group
selection, the list is exactly the fetched descending page (`loadMessages`
performs no re-sort: the comment on ChatsPage.tsx line 184 announces a
reverse that the code never does), so with two stored messages of server
timestamps 2 and 1 the displayed list is `[2, 1]` — not ascending by any
effective-timestamp key that uses the server timestamp when present. -/
theorem c2_counterexample :
    ¬ List.Sorted tsLe (handleGroupSelect S1 feed0 "g").msgs := by decide

/-- C2 (amended): the initial fetch (and likewise every pagination append)
leaves the list in the backend's descending timestamp order; ascending order
is only established when the messages-listener snapshot handler rebuilds the
list, and its sort key is the server timestamp's seconds with `0` substituted
when the timestamp is missing — the client-side `createdAt` fallback captured
at send time is never consulted, so a timestamp-pending optimistic message
sorts to the very front instead of near its send position. -/
theorem c2_amended_display_order (S : List Msg) (st st2 : Feed) (g : String)
    (hdesc : List.Sorted tsGe S) :
    List.Sorted tsGe (handleGroupSelect S st g).msgs ∧
    List.Sorted tsLe (messagesSnapshotReplace S st2).msgs ∧
    (∀ m : Msg, m.timestamp = none → sortKey m = 0) := by
  refine ⟨?_, ?_, ?_⟩
  · rw [show (handleGroupSelect S st g).msgs = pageAt S none from rfl, pageAt_none]
    exact hdesc.sublist (List.take_sublist _ _)
  · exact List.sorted_insertionSort tsLe (S.take 25)
  · intro m h
    simp [sortKey, h]

/-- Witness for C2 (amended) at the concrete two-message stream. -/
theorem c2_amended_display_order_witness :
    List.Sorted tsGe (handleGroupSelect S1 feed0 "g").msgs ∧
    List.Sorted tsLe (messagesSnapshotReplace S1 feed0).msgs ∧
    (∀ m : Msg, m.timestamp = none → sortKey m = 0) :=
  c2_amended_display_order S1 feed0 feed0 "g" (by decide)

/-- C3: for a group whose stored (descending) stream holds exactly 30
messages, selecting the group fetches exactly the 25 newest messages, still in
descending timestamp order, with `hasMoreMessages` set; the messages-listener
snapshot that fires on the selection re-sorts that page ascending for display
(a permutation of the same 25 messages, sorted by `tsLe`); the subsequent
`loadMoreMessages` issues a fetch that returns exactly the remaining 5 older
messages, appends them, and clears `hasMoreMessages` because fewer than 25
were returned. -/
theorem c3_thirty_message_pagination (S : List Msg) (g : String)
    (hlen : S.length = 30) (hdesc : List.Sorted tsGe S) :
    (handleGroupSelect S feed0 g).msgs = S.take 25 ∧
    (handleGroupSelect S feed0 g).msgs.length = 25 ∧
    List.Sorted tsGe (handleGroupSelect S feed0 g).msgs ∧
    (handleGroupSelect S feed0 g).hasMore = true ∧
    (messagesSnapshotReplace S (handleGroupSelect S feed0 g)).msgs.Perm
      (handleGroupSelect S feed0 g).msgs ∧
    List.Sorted tsLe (messagesSnapshotReplace S (handleGroupSelect S feed0 g)).msgs ∧
    (loadMoreMessages S (handleGroupSelect S feed0 g)).2 = true ∧
    (loadMoreMessages S (handleGroupSelect S feed0 g)).1.msgs = S.take 25 ++ S.drop 25 ∧
    (S.drop 25).length = 5 ∧
    (loadMoreMessages S (handleGroupSelect S feed0 g)).1.hasMore = false := by
  have hmsgs : (handleGroupSelect S feed0 g).msgs = S.take 25 := by
    rw [show (handleGroupSelect S feed0 g).msgs = pageAt S none from rfl, pageAt_none,
      MESSAGES_PER_PAGE_eq]
  have hplen : (pageAt S none).length = 25 := by
    rw [pageAt_none, MESSAGES_PER_PAGE_eq, List.length_take, hlen]
    decide
  have hdlen : (S.drop 25).length = 5 := by
    rw [List.length_drop, hlen]
  have hdrop : pageAt S (some 24) = S.drop 25 := by
    rw [pageAt_some, MESSAGES_PER_PAGE_eq]
    exact List.take_of_length_le (by rw [hdlen]; omega)
  have hcursor : (handleGroupSelect S feed0 g).cursor = some 24 := by
    rw [show handleGroupSelect S feed0 g
        = loadMessages S (selectGroupReset feed0 g) none from rfl, loadMessages_cursor, hplen]
    simp [fetchStart_none]
  have hhm : (handleGroupSelect S feed0 g).hasMore = true := by
    rw [show handleGroupSelect S feed0 g
        = loadMessages S (selectGroupReset feed0 g) none from rfl, loadMessages_hasMore, hplen,
      MESSAGES_PER_PAGE_eq]
    decide
  have hsel : (handleGroupSelect S feed0 g).selected = some g := rfl
  have hload : (handleGroupSelect S feed0 g).loadingMore = false := rfl
  have hmore : loadMoreMessages S (handleGroupSelect S feed0 g)
      = (loadMessages S (handleGroupSelect S feed0 g) (some 24), true) := by
    rw [loadMoreMessages, hsel, hhm, hload, hcursor]
    simp
  refine ⟨hmsgs, ?_, ?_, hhm, ?_, ?_, ?_, ?_, hdlen, ?_⟩
  · rw [hmsgs, List.length_take, hlen]
    decide
  · rw [hmsgs]
    exact hdesc.sublist (List.take_sublist _ _)
  · rw [show (messagesSnapshotReplace S (handleGroupSelect S feed0 g)).msgs
        = List.insertionSort tsLe (S.take 25) from rfl, hmsgs]
    exact List.perm_insertionSort tsLe (S.take 25)
  · exact List.sorted_insertionSort tsLe (S.take 25)
  · rw [hmore]
  · rw [hmore]
    show (loadMessages S (handleGroupSelect S feed0 g) (some 24)).msgs = _
    rw [loadMessages_msgs_some, hmsgs, hdrop]
  · rw [hmore]
    show (loadMessages S (handleGroupSelect S feed0 g) (some 24)).hasMore = false
    rw [loadMessages_hasMore, hdrop, hdlen, MESSAGES_PER_PAGE_eq]
    decide

/-- A concrete 30-message descending stored stream with distinct ids. -/
def S30 : List Msg := (List.range 30).map (fun i => msgT (toString i) (30 - (i : Int)))

/-- Witness for C3 at the concrete 30-message store. -/
theorem c3_thirty_message_pagination_witness :
    (handleGroupSelect S30 feed0 "g").msgs.length = 25 ∧
    (loadMoreMessages S30 (handleGroupSelect S30 feed0 "g")).1.msgs
      = S30.take 25 ++ S30.drop 25 ∧
    (loadMoreMessages S30 (handleGroupSelect S30 feed0 "g")).1.hasMore = false := by
  have h := c3_thirty_message_pagination S30 "g" (by decide) (by decide)
  exact ⟨h.2.1, h.2.2.2.2.2.2.2.1, h.2.2.2.2.2.2.2.2.2⟩

/-- C4 counterexample: `loadMoreMessages` never checks `lastMessageRef`.  In
the state the code itself creates synchronously at the start of
`handleGroupSelect` (messages cleared, cursor null, `hasMoreMessages` reset to
true, a group selected — ChatsPage.tsx lines 225-229, before the awaited
fetch), a `loadMoreMessages` call passes every guard, issues a fetch, and
replaces the message list, so it is not a no-op despite the absent cursor. -/
theorem c4_counterexample :
    (selectGroupReset feed0 "g").cursor = none ∧
    (loadMoreMessages S1 (selectGroupReset feed0 "g")).2 = true ∧
    (loadMoreMessages S1 (selectGroupReset feed0 "g")).1.msgs
      ≠ (selectGroupReset feed0 "g").msgs := by decide

/-- C4 (amended): `loadMoreMessages` is a no-op (state unchanged, no fetch
issued) when no group is selected, or a load is already in flight, or
`hasMoreMessages` is false; when the guards pass and a cursor exists it
fetches the next 25 messages strictly after the cursor document, appends them
to the end of the list, records whether a full page was returned in
`hasMoreMessages`, and advances the cursor to the new oldest fetched document;
when the guards pass but the cursor is null (possible transiently during a
group selection) it instead re-issues the initial query and replaces the
list.  There is no guard on the cursor itself. -/
theorem c4_loadOlder_guards (S : List Msg) (st : Feed) :
    (st.loadingMore = true → loadMoreMessages S st = (st, false)) ∧
    (st.hasMore = false → loadMoreMessages S st = (st, false)) ∧
    (st.selected = none → loadMoreMessages S st = (st, false)) ∧
    (∀ g k, st.selected = some g → st.loadingMore = false → st.hasMore = true →
      st.cursor = some k →
      (loadMoreMessages S st).2 = true ∧
      (loadMoreMessages S st).1.msgs = st.msgs ++ (S.drop (k + 1)).take 25 ∧
      (loadMoreMessages S st).1.hasMore
        = (((S.drop (k + 1)).take 25).length == 25) ∧
      ((S.drop (k + 1)).take 25 ≠ [] →
        (loadMoreMessages S st).1.cursor
          = some (k + ((S.drop (k + 1)).take 25).length))) ∧
    (∀ g, st.selected = some g → st.loadingMore = false → st.hasMore = true →
      st.cursor = none →
      (loadMoreMessages S st).2 = true ∧
      (loadMoreMessages S st).1.msgs = S.take 25) := by
  refine ⟨?_, ?_, ?_, ?_, ?_⟩
  · intro h
    rw [loadMoreMessages, h]
    simp
  · intro h
    rw [loadMoreMessages, h]
    simp
  · intro h
    rw [loadMoreMessages, h]
    simp
  · intro g k hsel hload hmore hcur
    have hrun : loadMoreMessages S st = (loadMessages S st (some k), true) := by
      rw [loadMoreMessages, hsel, hload, hmore, hcur]
      simp
    have hplen : pageAt S (some k) = (S.drop (k + 1)).take 25 := by
      rw [pageAt_some, MESSAGES_PER_PAGE_eq]
    refine ⟨by rw [hrun], ?_, ?_, ?_⟩
    · rw [hrun]
      show (loadMessages S st (some k)).msgs = _
      rw [loadMessages_msgs_some, hplen]
    · rw [hrun]
      show (loadMessages S st (some k)).hasMore = _
      rw [loadMessages_hasMore, hplen, MESSAGES_PER_PAGE_eq]
    · intro hne
      have hlen0 : ((pageAt S (some k)).length == 0) = false := by
        rw [hplen]
        have hne0 : ((S.drop (k + 1)).take 25).length ≠ 0 :=
          fun h0 => hne (List.length_eq_zero.1 h0)
        simpa using hne0
      rw [hrun]
      show (loadMessages S st (some k)).cursor = _
      rw [loadMessages_cursor, hlen0]
      have hpos : 0 < ((S.drop (k + 1)).take 25).length := by
        rcases Nat.eq_zero_or_pos ((S.drop (k + 1)).take 25).length with h0 | h0
        · exact absurd (List.length_eq_zero.1 h0) hne
        · exact h0
      simp only [Bool.false_eq_true, if_false, fetchStart_some, hplen]
      congr 1
      omega
  · intro g hsel hload hmore hcur
    have hrun : loadMoreMessages S st = (loadMessages S st none, true) := by
      rw [loadMoreMessages, hsel, hload, hmore, hcur]
      simp
    refine ⟨by rw [hrun], ?_⟩
    rw [hrun]
    show (loadMessages S st none).msgs = _
    rw [loadMessages_msgs_none, pageAt_none, MESSAGES_PER_PAGE_eq]

/-- A ready feed state used by the C4 witness: group selected, cursor at
position 0, more history available. -/
def stReady : Feed :=
  { msgs := [msgT "b" 2], cursor := some 0, hasMore := true, loadingMore := false,
    selected := some "g" }

/-- A feed state with `hasMoreMessages` exhausted, used by the C4 witness. -/
def stNoMore : Feed :=
  { msgs := [msgT "b" 2, msgT "a" 1], cursor := some 1, hasMore := false,
    loadingMore := false, selected := some "g" }

/-- Witness for C4 (amended): the exhausted state is left untouched with no
fetch, and the ready state appends the strictly-older page. -/
theorem c4_loadOlder_guards_witness :
    loadMoreMessages S1 stNoMore = (stNoMore, false) ∧
    (loadMoreMessages S1 stReady).1.msgs = stReady.msgs ++ (S1.drop 1).take 25 := by
  refine ⟨(c4_loadOlder_guards S1 stNoMore).2.1 rfl, ?_⟩
  have h := (c4_loadOlder_guards S1 stReady).2.2.2.1 "g" 0 rfl rfl rfl rfl
  exact h.2.1

/-- The live-subscription bookkeeping of `handleGroupSelect` (ChatsPage.tsx
lines 224-289): the component state `messageListener`, the set of currently
attached `onSnapshot` listeners (handle, group id), and a handle counter. -/
structure Subs where
  messageListener : Option Nat
  active : List (Nat × String)
  nextId : Nat
  deriving DecidableEq

/-- The initial subscription state (ChatsPage.tsx line 77). -/
def subs0 : Subs := { messageListener := none, active := [], nextId := 0 }

/-- `handleGroupSelect`'s subscription effects (ChatsPage.tsx lines 231-234
and 266-285): if a listener handle is stored in `messageListener` it is called
(detached) and the state is cleared; a new `onSnapshot` listener scoped to the
selected group is then attached — but its unsubscribe function is only
*returned* from the async click handler (line 285, a value nobody consumes)
and is never stored back into `messageListener`. -/
def handleGroupSelectSubs (g : String) (s : Subs) : Subs :=
  match s.messageListener with
  | some h =>
      { messageListener := none,
        active := (s.active.filter (fun p => p.1 != h)) ++ [(s.nextId, g)],
        nextId := s.nextId + 1 }
  | none =>
      { messageListener := none,
        active := s.active ++ [(s.nextId, g)],
        nextId := s.nextId + 1 }

/-- A message belonging to group "A", delivered after group "B" was selected. -/
def mA : Msg :=
  { id := "leak", content := "m", senderId := "u", senderName := "u",
    timestamp := some { seconds := 9, nanoseconds := 0 }, groupId := "A",
    createdAt := none }

/-- C5 (code bug, evaluated at the failing input): selecting group "A" and then
group "B" leaves TWO live subscriptions attached — `messageListener` is still
`none` when "B" is selected, so the detach on lines 231-234 detaches nothing
and "A"'s listener (whose unsubscribe was discarded on line 285) stays active
alongside "B"'s; and a subsequent `added` delivery from the leaked "A"
listener inserts a group-"A" message into the feed of the currently selected
group "B".  The spec (and the dead `messageListener` detach logic itself)
intend the previous subscription to be detached before the next is attached. -/
theorem c5_subscription_leak :
    (handleGroupSelectSubs "B" (handleGroupSelectSubs "A" subs0)).messageListener = none ∧
    (handleGroupSelectSubs "B" (handleGroupSelectSubs "A" subs0)).active.map Prod.snd
      = ["A", "B"] ∧
    (handleGroupSelectSubs "B" (handleGroupSelectSubs "A" subs0)).active.length ≠ 1 ∧
    mA.groupId = "A" ∧
    (handleGroupSelect [] feed0 "B").selected = some "B" ∧
    mA ∈ (liveAdd mA (handleGroupSelect [] feed0 "B")).msgs := by decide

/-- The `Group` interface of ChatsPage.tsx (lines 45-53).  The creation
timestamp field is elided: no claim concerns it. -/
structure GroupDoc where
  id : String
  name : String
  description : String
  createdBy : String
  members : List String
  inviteCode : Option String
  deriving DecidableEq

/-- The character JavaScript uses for base-36 digit `d`: `0`-`9` then
`a`-`z`. -/
def base36Digit (d : Fin 36) : Char :=
  if d.val < 10 then Char.ofNat (48 + d.val) else Char.ofNat (97 + (d.val - 10))

/-- JavaScript's `Number.prototype.toString(36)` for a value in `[0, 1)`,
given the value's base-36 fraction digits (with no trailing zeros, as the
engine prints none): `"0"` for zero, otherwise `"0."` followed by the digit
characters.  Strings are modelled as their character lists. -/
def jsToString36 (digits : List (Fin 36)) : List Char :=
  if digits.isEmpty then ['0'] else '0' :: '.' :: digits.map base36Digit

/-- `generateInviteCode`'s token construction (ChatsPage.tsx line 396):
`Math.random().toString(36).substring(2, 10).toUpperCase()`, i.e. drop the
leading `"0."` and keep at most the next 8 characters, uppercased.  The
randomness is modelled by quantifying over the base-36 fraction digits of the
value `Math.random()` returned. -/
def generateInviteCode (digits : List (Fin 36)) : List Char :=
  (((jsToString36 digits).drop 2).take 8).map Char.toUpper

/-- Uppercase alphanumeric: a decimal digit or an uppercase letter. -/
def isUpperAlnum (c : Char) : Bool :=
  ((decide ('0' ≤ c) && decide (c ≤ '9')) || (decide ('A' ≤ c) && decide (c ≤ 'Z')))

/-- Persisting a (re)generated invite code (ChatsPage.tsx lines 398-400):
`updateDoc` overwrites the `inviteCode` field of the selected group's
document. -/
def setInviteCode (gs : List GroupDoc) (gid code : String) : List GroupDoc :=
  gs.map (fun g => if g.id == gid then { g with inviteCode := some code } else g)

/-- The invite-code lookup of `handleJoinGroup` (ChatsPage.tsx lines 414-424):
query groups whose stored `inviteCode` equals the code and take the first
match. -/
def lookupGroupByCode (gs : List GroupDoc) (code : String) : Option GroupDoc :=
  gs.find? (fun g => g.inviteCode == some code)

lemma base36Digit_upper_alnum :
    ∀ d : Fin 36, isUpperAlnum (Char.toUpper (base36Digit d)) = true := by decide

/-- C6 counterexample: `Math.random().toString(36)` does not always have 8
fraction digits, so `substring(2, 10)` can come up short.  For
`Math.random() = 0.5` (base-36 expansion one digit, `i`) the generated code
is `"I"`, a 1-character string, not an 8-character one. -/
theorem c6_counterexample :
    (generateInviteCode [(18 : Fin 36)]).length = 1 ∧
    (generateInviteCode [(18 : Fin 36)]).length ≠ 8 := by decide

/-- C6 (amended): every generated invite code is a string of AT MOST 8
characters (exactly 8 only when the random value's base-36 expansion has at
least 8 fraction digits), each an uppercase letter or digit; it is persisted
by overwriting the group's stored code; and afterwards a lookup by the old
code no longer resolves that group, provided the regenerated code differs
from the old one. -/
theorem c6_invite_code_amended (digits : List (Fin 36)) (gs : List GroupDoc)
    (gid old new : String) (hne : new ≠ old) :
    (generateInviteCode digits).length ≤ 8 ∧
    (∀ c ∈ generateInviteCode digits, isUpperAlnum c = true) ∧
    (∀ g2 ∈ setInviteCode gs gid new, g2.id = gid → g2.inviteCode = some new) ∧
    (∀ g2, lookupGroupByCode (setInviteCode gs gid new) old = some g2 →
      g2.id ≠ gid) := by
  refine ⟨?_, ?_, ?_, ?_⟩
  · rw [generateInviteCode, List.length_map]
    exact List.length_take_le 8 _
  · intro c hc
    rw [generateInviteCode] at hc
    rcases List.mem_map.1 hc with ⟨c0, hc0, rfl⟩
    have hc1 : c0 ∈ (jsToString36 digits).drop 2 :=
      (List.take_sublist _ _).mem hc0
    by_cases hd : digits.isEmpty
    · rw [jsToString36, if_pos hd] at hc1
      simp at hc1
    · rw [jsToString36, if_neg hd] at hc1
      simp only [List.drop_succ_cons, List.drop_zero] at hc1
      rcases List.mem_map.1 hc1 with ⟨d, _, rfl⟩
      exact base36Digit_upper_alnum d
  · intro g2 hg2 hid
    rcases List.mem_map.1 hg2 with ⟨g0, _, rfl⟩
    by_cases h0 : (g0.id == gid) = true
    · rw [if_pos h0]
    · rw [if_neg h0] at hid ⊢
      exact absurd (by simpa using hid) (by simpa using h0)
  · intro g2 hfound hid
    have hfind : (setInviteCode gs gid new).find? (fun g => g.inviteCode == some old)
        = some g2 := hfound
    have hmem : g2 ∈ setInviteCode gs gid new := List.mem_of_find?_eq_some hfind
    have hcode := List.find?_some hfind
    rcases List.mem_map.1 hmem with ⟨g0, _, rfl⟩
    by_cases h0 : (g0.id == gid) = true
    · rw [if_pos h0] at hcode
      have : some new = some old := by simpa using hcode
      exact hne (by simpa using this)
    · rw [if_neg h0] at hid
      exact absurd (by simpa using hid) (by simpa using h0)

/-- An 8-fraction-digit random value for the C6 witness. -/
def digits8 : List (Fin 36) := [10, 11, 12, 13, 14, 15, 16, 17]

/-- A one-group store whose group carries the code `"OLDCODE1"`. -/
def gsOld : List GroupDoc :=
  [{ id := "g1", name := "n", description := "", createdBy := "u",
     members := ["u"], inviteCode := some "OLDCODE1" }]

/-- Witness for C6 (amended) at a concrete random value and store. -/
theorem c6_invite_code_amended_witness :
    (generateInviteCode digits8).length ≤ 8 ∧
    isUpperAlnum 'A' = true ∧
    lookupGroupByCode (setInviteCode gsOld "g1" "NEWCODE1") "OLDCODE1" = none := by
  have h := c6_invite_code_amended digits8 gsOld "g1" "OLDCODE1" "NEWCODE1" (by decide)
  exact ⟨h.1, h.2.1 'A' (by decide), by decide⟩

/-- JavaScript's `String.prototype.trim()`: strip leading and trailing
whitespace (modelled on the string's character list). -/
def strTrim (s : String) : String :=
  ⟨((s.data.dropWhile Char.isWhitespace).reverse.dropWhile Char.isWhitespace).reverse⟩

/-- JavaScript's `String.prototype.toUpperCase()` (modelled on the string's
character list). -/
def strToUpper (s : String) : String := ⟨s.data.map Char.toUpper⟩

/-- JavaScript's `String.prototype.toLowerCase()` (modelled on the string's
character list). -/
def strToLower (s : String) : String := ⟨s.data.map Char.toLower⟩

/-- Firestore's `arrayUnion` on a member list: append the element only when it
is not already present (used by ChatsPage.tsx lines 432-434). -/
def arrayUnion (l : List String) (x : String) : List String :=
  if l.contains x then l else l ++ [x]

/-- `handleJoinGroup` (ChatsPage.tsx lines 409-445): a blank code is silently
ignored (line 410); otherwise the entered code is trimmed and uppercased and
looked up by exact match against stored invite codes; no match raises
"Invalid invite code"; a match whose member list already holds the joining
user's id raises "You are already a member of this group"; otherwise the
matched group's member list is updated with `arrayUnion` of the user id.  The
returned value is the error message or the updated group store. -/
def handleJoinGroup (gs : List GroupDoc) (uid code : String) :
    Except String (List GroupDoc) :=
  if strTrim code = "" then Except.ok gs
  else
    match gs.find? (fun g => g.inviteCode == some (strToUpper (strTrim code))) with
    | none => Except.error "Invalid invite code"
    | some g =>
        if g.members.contains uid = true then
          Except.error "You are already a member of this group"
        else
          Except.ok (gs.map (fun g2 => if g2.id == g.id
            then { g2 with members := arrayUnion g2.members uid } else g2))

/-- C7: for a non-blank entered code, `handleJoinGroup` fails with "Invalid
invite code" when no group's stored invite code matches the normalized
(trimmed, uppercased) code; fails with "You are already a member of this
group", producing no updated store, when the matched group's member list
already holds the joining user's id; and otherwise updates exactly the matched
group by `arrayUnion` of the user id, which — since the id was checked absent —
appends exactly that one id.  The last conjunct states `arrayUnion`'s
set-union semantics: it never duplicates an existing entry. -/
theorem c7_join_group_semantics (gs : List GroupDoc) (uid code : String)
    (hcode : strTrim code ≠ "") :
    (gs.find? (fun g => g.inviteCode == some (strToUpper (strTrim code))) = none →
      handleJoinGroup gs uid code = Except.error "Invalid invite code") ∧
    (∀ g, gs.find? (fun g2 => g2.inviteCode == some (strToUpper (strTrim code))) = some g →
      g.members.contains uid = true →
      handleJoinGroup gs uid code
        = Except.error "You are already a member of this group") ∧
    (∀ g, gs.find? (fun g2 => g2.inviteCode == some (strToUpper (strTrim code))) = some g →
      g.members.contains uid = false →
      handleJoinGroup gs uid code
        = Except.ok (gs.map (fun g2 => if g2.id == g.id
            then { g2 with members := arrayUnion g2.members uid } else g2)) ∧
      arrayUnion g.members uid = g.members ++ [uid]) ∧
    (∀ (l : List String) (x : String),
      (l.contains x = true → arrayUnion l x = l) ∧
      (l.contains x = false → arrayUnion l x = l ++ [x])) := by
  refine ⟨?_, ?_, ?_, ?_⟩
  · intro hfind
    rw [handleJoinGroup, if_neg hcode, hfind]
  · intro g hfind hmem
    rw [handleJoinGroup, if_neg hcode, hfind]
    exact if_pos hmem
  · intro g hfind hmem
    have hmem2 : ¬ (g.members.contains uid = true) := by
      rw [hmem]
      exact Bool.false_ne_true
    constructor
    · rw [handleJoinGroup, if_neg hcode, hfind]
      exact if_neg hmem2
    · rw [arrayUnion, hmem]
      simp
  · intro l x
    constructor
    · intro h
      rw [arrayUnion, h]
      simp
    · intro h
      rw [arrayUnion, h]
      simp

/-- A one-group store for the C7 witness. -/
def gJoin : GroupDoc :=
  { id := "g1", name := "n", description := "", createdBy := "owner",
    members := ["owner"], inviteCode := some "CODE1234" }

/-- Witness for C7: the entered code is normalized before matching (the
lowercase, padded `" code1234 "` matches the stored `"CODE1234"`), a fresh
user is appended exactly once, a second join by an existing member errors
without an update, and a wrong code errors. -/
theorem c7_join_group_semantics_witness :
    handleJoinGroup [gJoin] "newuser" " code1234 "
      = Except.ok [{ gJoin with members := ["owner", "newuser"] }] ∧
    handleJoinGroup [gJoin] "owner" "CODE1234"
      = Except.error "You are already a member of this group" ∧
    handleJoinGroup [gJoin] "u2" "WRONG" = Except.error "Invalid invite code" := by
  refine ⟨?_, ?_, ?_⟩
  · have h := (c7_join_group_semantics [gJoin] "newuser" " code1234 "
      (by decide)).2.2.1 gJoin (by decide) (by decide)
    rw [h.1]
    rfl
  · exact (c7_join_group_semantics [gJoin] "owner" "CODE1234" (by decide)).2.1 gJoin
      (by decide) (by decide)
  · exact (c7_join_group_semantics [gJoin] "u2" "WRONG" (by decide)).1 (by decide)

/-- The signup form fields of the auth page. -/
structure SignupInput where
  email : String
  password : String
  confirmPassword : String
  username : String
  deriving DecidableEq

/-- One backend effect performed by the signup flow, in the order the auth
page issues them: the `usernames/<key>` availability read (`checkUsername`),
`createUserWithEmailAndPassword`, `updateProfile`, the `users/<uid>` profile
`setDoc` and the `usernames/<key>` reservation `setDoc` (both inside
`createUserDocument`), and `sendEmailVerification`. -/
inductive AuthEffect where
  | checkUsernameDoc : String → AuthEffect
  | createAccount : String → String → AuthEffect
  | updateDisplayName : String → AuthEffect
  | setUserDoc : String → String → String → AuthEffect
  | setUsernameDoc : String → String → AuthEffect
  | sendVerification : AuthEffect
  deriving DecidableEq

/-- The signup branch of `handleAuth` on the auth page (lines 88-128),
composed with `checkUsername` (lines 55-59) and `createUserDocument` (lines
26-52).  `taken` models the keys present in the `usernames` collection; `uid`
is the id the auth backend assigns at account creation.  The result is the
inline error, if any, paired with the ordered list of backend effects
performed.  The page's `!username` falsiness test is the empty-string test. -/
def handleAuthSignup (taken : List String) (inp : SignupInput) (uid : String) :
    Option String × List AuthEffect :=
  if inp.password ≠ inp.confirmPassword then
    (some "Passwords do not match", [])
  else if inp.password.length < 6 then
    (some "Password must be at least 6 characters long", [])
  else if inp.username = "" ∨ inp.username.length < 3 then
    (some "Username must be at least 3 characters long", [])
  else if taken.contains (strToLower inp.username) then
    (some "Username is already taken", [AuthEffect.checkUsernameDoc (strToLower inp.username)])
  else
    (none,
     [AuthEffect.checkUsernameDoc (strToLower inp.username),
      AuthEffect.createAccount inp.email inp.password,
      AuthEffect.updateDisplayName inp.username,
      AuthEffect.setUserDoc uid inp.email inp.username,
      AuthEffect.setUsernameDoc (strToLower inp.username) uid,
      AuthEffect.sendVerification])

/-- C8: whenever the two entered passwords differ, or the password is shorter
than 6 characters, or the username is shorter than 3 characters, signup
submission is blocked with an inline error and performs NO backend effect: no
availability read, no account creation, no profile document, no username
reservation (the validation returns before any backend call, auth page lines
90-103). -/
theorem c8_signup_validation_blocks (taken : List String) (inp : SignupInput)
    (uid : String)
    (h : inp.password ≠ inp.confirmPassword ∨ inp.password.length < 6 ∨
      inp.username.length < 3) :
    (handleAuthSignup taken inp uid).1.isSome = true ∧
    (handleAuthSignup taken inp uid).2 = [] := by
  rw [handleAuthSignup]
  by_cases h1 : inp.password ≠ inp.confirmPassword
  · rw [if_pos h1]
    exact ⟨rfl, rfl⟩
  · rw [if_neg h1]
    by_cases h2 : inp.password.length < 6
    · rw [if_pos h2]
      exact ⟨rfl, rfl⟩
    · rw [if_neg h2]
      have h3 : inp.username.length < 3 := by
        rcases h with h | h | h
        · exact absurd h h1
        · exact absurd h h2
        · exact h
      rw [if_pos (Or.inr h3)]
      exact ⟨rfl, rfl⟩

/-- A signup attempt whose two password fields differ. -/
def inpBad : SignupInput :=
  { email := "a@b.c", password := "secret1", confirmPassword := "secret2",
    username := "bob" }

/-- Witness for C8: the mismatched-password attempt is blocked with an error
and performs no effect. -/
theorem c8_signup_validation_blocks_witness :
    (handleAuthSignup [] inpBad "u1").1.isSome = true ∧
    (handleAuthSignup [] inpBad "u1").2 = [] :=
  c8_signup_validation_blocks [] inpBad "u1" (Or.inl (by decide))

/-- A valid signup attempt with a mixed-case username. -/
def inpOk : SignupInput :=
  { email := "a@b.c", password := "secret1", confirmPassword := "secret1",
    username := "Alice" }

/-- C9 counterexample: on a successful signup the username-reservation
document write is NOT performed before account creation — the availability
check (index 0) precedes `createUserWithEmailAndPassword` (index 1), but the
reservation `setDoc` happens at index 4, inside `createUserDocument`, which
runs only after the account exists (auth page lines 106-125). -/
theorem c9_counterexample :
    (handleAuthSignup [] inpOk "u1").2.findIdx
        (fun e => e == AuthEffect.createAccount "a@b.c" "secret1") = 1 ∧
    (handleAuthSignup [] inpOk "u1").2.findIdx
        (fun e => e == AuthEffect.setUsernameDoc "alice" "u1") = 4 ∧
    ¬ ((handleAuthSignup [] inpOk "u1").2.findIdx
        (fun e => e == AuthEffect.setUsernameDoc "alice" "u1") <
       (handleAuthSignup [] inpOk "u1").2.findIdx
        (fun e => e == AuthEffect.createAccount "a@b.c" "secret1")) := by decide

/-- C9 (amended): on successful signup the availability check keys on the
lowercased username and precedes account creation; the reservation document,
also keyed on the lowercased username, is written only AFTER account creation,
immediately paired with the profile document (profile `setDoc` then
reservation `setDoc`, consecutively, inside `createUserDocument`). -/
theorem c9_signup_reservation_order (taken : List String) (inp : SignupInput)
    (uid : String)
    (h1 : inp.password = inp.confirmPassword)
    (h2 : ¬ inp.password.length < 6)
    (h3 : ¬ (inp.username = "" ∨ inp.username.length < 3))
    (h4 : taken.contains (strToLower inp.username) = false) :
    (handleAuthSignup taken inp uid).1 = none ∧
    (handleAuthSignup taken inp uid).2 =
      [AuthEffect.checkUsernameDoc (strToLower inp.username),
       AuthEffect.createAccount inp.email inp.password,
       AuthEffect.updateDisplayName inp.username,
       AuthEffect.setUserDoc uid inp.email inp.username,
       AuthEffect.setUsernameDoc (strToLower inp.username) uid,
       AuthEffect.sendVerification] := by
  have h1n : ¬ inp.password ≠ inp.confirmPassword := fun hne => hne h1
  have h4n : ¬ (taken.contains (strToLower inp.username) = true) := by
    rw [h4]
    exact Bool.false_ne_true
  rw [handleAuthSignup, if_neg h1n, if_neg h2, if_neg h3, if_neg h4n]
  exact ⟨rfl, rfl⟩

/-- Witness for C9 (amended) at the concrete mixed-case signup. -/
theorem c9_signup_reservation_order_witness :
    (handleAuthSignup [] inpOk "u1").1 = none ∧
    (handleAuthSignup [] inpOk "u1").2 =
      [AuthEffect.checkUsernameDoc "alice",
       AuthEffect.createAccount "a@b.c" "secret1",
       AuthEffect.updateDisplayName "Alice",
       AuthEffect.setUserDoc "u1" "a@b.c" "Alice",
       AuthEffect.setUsernameDoc "alice" "u1",
       AuthEffect.sendVerification] := by
  have h := c9_signup_reservation_order [] inpOk "u1" rfl (by decide) (by decide) rfl
  refine ⟨h.1, ?_⟩
  rw [h.2]
  decide

/-- The slice of `ChatsPage` state touched by `handleCreateGroup`: the
sidebar's group list, the backing `groups` collection, and the selected
group. -/
structure ChatState where
  groups : List GroupDoc
  groupStore : List GroupDoc
  selectedGroup : Option GroupDoc
  deriving DecidableEq

/-- `handleCreateGroup` (ChatsPage.tsx lines 359-390): a blank (trimmed) name
or a missing signed-in user returns immediately; otherwise a group document
with the trimmed name and description, the creator as `createdBy`, and a
member list holding exactly the creator is added to the collection (`newId`
models the id `addDoc` assigns), prepended to the sidebar list, and made the
selected group. -/
def handleCreateGroup (st : ChatState) (user : Option String)
    (newId name descr : String) : ChatState :=
  if strTrim name = "" then st
  else
    match user with
    | none => st
    | some uid =>
        { groups :=
            { id := newId, name := strTrim name, description := strTrim descr,
              createdBy := uid, members := [uid], inviteCode := none } :: st.groups,
          groupStore := st.groupStore ++
            [{ id := newId, name := strTrim name, description := strTrim descr,
               createdBy := uid, members := [uid], inviteCode := none }],
          selectedGroup :=
            some { id := newId, name := strTrim name, description := strTrim descr,
                   createdBy := uid, members := [uid], inviteCode := none } }

/-- C10: with a signed-in user and a non-blank trimmed name,
`handleCreateGroup` stores exactly one new group document whose member list is
exactly the creator's id (and whose `createdBy` is the creator), and that
newly created group immediately becomes the selected group; with a blank
trimmed name the whole operation is a no-op. -/
theorem c10_create_group (st : ChatState) (uid newId name descr : String)
    (hname : strTrim name ≠ "") :
    ((handleCreateGroup st (some uid) newId name descr).groupStore
       = st.groupStore ++
         [{ id := newId, name := strTrim name, description := strTrim descr,
            createdBy := uid, members := [uid], inviteCode := none }]) ∧
    ((handleCreateGroup st (some uid) newId name descr).selectedGroup
       = some { id := newId, name := strTrim name, description := strTrim descr,
                createdBy := uid, members := [uid], inviteCode := none }) ∧
    (∀ g, (handleCreateGroup st (some uid) newId name descr).selectedGroup = some g →
       g.members = [uid] ∧ g.createdBy = uid) ∧
    (∀ blank, strTrim blank = "" →
       handleCreateGroup st (some uid) newId blank descr = st) := by
  have hrun : handleCreateGroup st (some uid) newId name descr =
      { groups :=
          { id := newId, name := strTrim name, description := strTrim descr,
            createdBy := uid, members := [uid], inviteCode := none } :: st.groups,
        groupStore := st.groupStore ++
          [{ id := newId, name := strTrim name, description := strTrim descr,
             createdBy := uid, members := [uid], inviteCode := none }],
        selectedGroup :=
          some { id := newId, name := strTrim name, description := strTrim descr,
                 createdBy := uid, members := [uid], inviteCode := none } } := by
    rw [handleCreateGroup, if_neg hname]
  refine ⟨by rw [hrun], by rw [hrun], ?_, ?_⟩
  · intro g hg
    rw [hrun] at hg
    have hg2 := Option.some.inj hg
    rw [← hg2]
    exact ⟨rfl, rfl⟩
  · intro blank hblank
    rw [handleCreateGroup, if_pos hblank]

/-- An existing chat state for the C10 witness. -/
def chat0 : ChatState := { groups := [], groupStore := [], selectedGroup := none }

/-- Witness for C10: creating a group named `" room "` (trimmed to `"room"`)
stores the singleton-member group and selects it, and a whitespace-only name
is a no-op. -/
theorem c10_create_group_witness :
    (handleCreateGroup chat0 (some "u1") "gid" " room " "d").groupStore
      = [{ id := "gid", name := "room", description := "d", createdBy := "u1",
           members := ["u1"], inviteCode := none }] ∧
    (handleCreateGroup chat0 (some "u1") "gid" " room " "d").selectedGroup
      = some { id := "gid", name := "room", description := "d", createdBy := "u1",
               members := ["u1"], inviteCode := none } ∧
    handleCreateGroup chat0 (some "u1") "gid" "   " "d" = chat0 := by
  have h := c10_create_group chat0 "u1" "gid" " room " "d" (by decide)
  refine ⟨?_, ?_, h.2.2.2 "   " (by decide)⟩
  · rw [h.1]
    decide
  · rw [h.2.1]
    decide
